import Mathlib

/-!
Shallow embedding of the grid-provider Terraform provider
(`internal/provider/resource_deployment.go` and
`internal/provider/resource_network.go`) together with theorems that
settle the specification claims about it.

Machine integers are modelled as `Nat` (no arithmetic in the embedded
fragments overflows), Go `error` returns are modelled with
`Except String`, and the external collaborators (substrate ledger,
node-agent RPC, wireguard key derivation, ECDH encryption) are taken as
parameters of the embedded functions.
-/

set_option maxRecDepth 100000

namespace GridProvider

/-- An IPv4 network as built by `ipNet` in `resource_network.go`:
four octets plus a CIDR mask length. -/
structure IPNet where
  a : Nat
  b : Nat
  c : Nat
  d : Nat
  mask : Nat
  deriving DecidableEq, Repr

/-- `ipNet(a, b, c, d, msk)` from `resource_network.go`. -/
def ipNet (a b c d msk : Nat) : IPNet :=
  { a := a, b := b, c := c, d := d, mask := msk }

/-- The dotted-quad rendering `fmt.Sprintf("%d.%d.%d.%d", ...)` used by
`getFreeIP` on the four octets of a candidate address. -/
def ipStr (ip : IPNet) : String :=
  toString ip.a ++ "." ++ toString ip.b ++ "." ++ toString ip.c ++ "." ++ toString ip.d

/-- `gridtypes.IPNet.String()`: dotted quad plus `/mask`, the form the
provider persists in state (`external_ip`, per-node `ip_range`). -/
def ipNetStr (ip : IPNet) : String :=
  ipStr ip ++ "/" ++ toString ip.mask

/-- Modelled from the spec: the string-list membership helper `isInStr`
used by `getFreeIP` is not among the two source files; per the spec's
description of the ad-hoc linear "is in set" scans, and exactly like its
siblings `isIn`, `isInByte` and `isInInt` in `resource_network.go`, it is
a linear scan for an equal element. -/
def isInStr (l : List String) (s : String) : Bool :=
  match l with
  | [] => false
  | x :: rest => if s = x then true else isInStr rest s

/-- The loop body of `getFreeIP`: starting at host id `i`, return the
first candidate `a.b.c.i` (built as an `/32` net via `ipNet`) whose
dotted form is not in `usedIPs`; the Go loop runs while `i < 255`. -/
def getFreeIPAux (a b c : Nat) (usedIPs : List String) (i : Nat) : Except String String :=
  if _h : i < 255 then
    if isInStr usedIPs (ipStr (ipNet a b c i 32)) then getFreeIPAux a b c usedIPs (i + 1)
    else Except.ok (ipStr (ipNet a b c i 32))
  else
    Except.error "all ips are used"
termination_by 255 - i

/-- `getFreeIP(ipRange, usedIPs)` from `resource_deployment.go`, with the
first three octets of the range passed explicitly: the scan starts at
host id 2. -/
def getFreeIP (a b c : Nat) (usedIPs : List String) : Except String String :=
  getFreeIPAux a b c usedIPs 2

/-- One workload's result as inspected by `waitDeployment`
(`wl.Result.State`, `wl.Result.Error`). -/
structure Workload where
  state : String
  error : String
  deriving DecidableEq, Repr

/-- `gridtypes.StateOk`, the success result state. -/
def stateOk : String := "ok"

/-- The error text `fmt.Sprintf("workload %d failed within deployment %d
with error %s", idx, deploymentID, wl.Result.Error)`. -/
def failMsg (idx deploymentID : Nat) (err : String) : String :=
  "workload " ++ toString idx ++ " failed within deployment " ++ toString deploymentID
    ++ " with error " ++ err

/-- The error text `fmt.Sprintf("waiting for deployment %d timedout",
deploymentID)`. -/
def timeoutMsg (deploymentID : Nat) : String :=
  "waiting for deployment " ++ toString deploymentID ++ " timedout"

/-- The inner `for idx, wl := range dl.Workloads` loop of
`waitDeployment`: `done` starts `true`; an empty result state clears it
and moves on; a non-empty non-`ok` state returns the failure error for
that workload's index; otherwise the final `done` flag is reported. -/
def checkWorkloads (deploymentID : Nat) : List Workload → Nat → Bool → Except String Bool
  | [], _, done => Except.ok done
  | wl :: rest, idx, done =>
    if wl.state = "" then checkWorkloads deploymentID rest (idx + 1) false
    else if wl.state ≠ stateOk then Except.error (failMsg idx deploymentID wl.error)
    else checkWorkloads deploymentID rest (idx + 1) done

/-- One `DeploymentGet` fetch: either a transport error or the fetched
deployment's workload list. -/
def Fetch : Type := Except String (List Workload)

/-- `waitDeployment` from `resource_deployment.go`. The 4-minute
wall-clock budget is modelled by the list of fetches that fit into the
budget: each loop iteration consumes one fetch, an exhausted list is the
`time.Since(start) < 4*time.Minute` guard failing. A fetch error is
returned as-is; a fetch whose workloads all have non-empty states with
none failed returns success; a failed workload returns its failure error
immediately; otherwise the loop polls again. -/
def waitDeployment (deploymentID : Nat) : List Fetch → Except String Unit
  | [] => Except.error (timeoutMsg deploymentID)
  | Except.error e :: _ => Except.error e
  | Except.ok wls :: rest =>
    match checkWorkloads deploymentID wls 0 true with
    | Except.error e => Except.error e
    | Except.ok true => Except.ok ()
    | Except.ok false => waitDeployment deploymentID rest

/-- The observable effects of one run of `waitDeployment`'s loop: the
loop body performs exactly one agent fetch per iteration and contains no
sleep or delay call, so the trace records a `fetch` action per consumed
fetch and nothing else. -/
inductive PollAction where
  | fetch
  | delay (ms : Nat)
  deriving DecidableEq, Repr

/-- The action trace of `waitDeployment` on a fetch sequence: one `fetch`
per loop iteration; the source loop body has no `time.Sleep`, so no
`delay` action is ever emitted. -/
def waitDeploymentTrace (deploymentID : Nat) : List Fetch → List PollAction
  | [] => []
  | Except.error _ :: _ => [PollAction.fetch]
  | Except.ok wls :: rest =>
    PollAction.fetch ::
      (match checkWorkloads deploymentID wls 0 true with
       | Except.error _ => []
       | Except.ok true => []
       | Except.ok false => waitDeploymentTrace deploymentID rest)

/-! ### Lemmas about `checkWorkloads` and `waitDeployment` -/

theorem checkWorkloads_ok_true (deploymentID : Nat) :
    ∀ (wls : List Workload) (idx : Nat) (done : Bool),
      checkWorkloads deploymentID wls idx done = Except.ok true →
      done = true ∧ ∀ wl ∈ wls, wl.state = stateOk := by
  intro wls
  induction wls with
  | nil =>
    intro idx done h
    simp only [checkWorkloads] at h
    exact ⟨Except.ok.inj h, by simp⟩
  | cons wl rest ih =>
    intro idx done h
    simp only [checkWorkloads] at h
    by_cases h1 : wl.state = ""
    · rw [if_pos h1] at h
      obtain ⟨hfalse, _⟩ := ih (idx + 1) false h
      exact absurd hfalse (by simp)
    · rw [if_neg h1] at h
      by_cases h2 : wl.state ≠ stateOk
      · rw [if_pos h2] at h
        exact absurd h (by simp)
      · rw [if_neg h2] at h
        push_neg at h2
        obtain ⟨hdone, hrest⟩ := ih (idx + 1) done h
        refine ⟨hdone, ?_⟩
        intro w hw
        rcases List.mem_cons.mp hw with rfl | hw
        · exact h2
        · exact hrest w hw

theorem checkWorkloads_all_ok (deploymentID : Nat) :
    ∀ (wls : List Workload) (idx : Nat) (done : Bool),
      (∀ wl ∈ wls, wl.state = stateOk) →
      checkWorkloads deploymentID wls idx done = Except.ok done := by
  intro wls
  induction wls with
  | nil => intro idx done _; rfl
  | cons wl rest ih =>
    intro idx done hall
    have hhead : wl.state = stateOk := hall wl (List.mem_cons_self wl rest)
    have hne : ¬ wl.state = "" := by rw [hhead]; decide
    simp only [checkWorkloads, if_neg hne]
    rw [if_neg (fun hcon => hcon hhead)]
    exact ih (idx + 1) done (fun w hw => hall w (List.mem_cons_of_mem wl hw))

theorem checkWorkloads_fails (deploymentID : Nat) :
    ∀ (wls : List Workload) (i : Nat) (wl : Workload) (idx : Nat) (done : Bool),
      wls[i]? = some wl →
      wl.state ≠ "" → wl.state ≠ stateOk →
      (∀ j wl', j < i → wls[j]? = some wl' → wl'.state = "" ∨ wl'.state = stateOk) →
      checkWorkloads deploymentID wls idx done = Except.error (failMsg (idx + i) deploymentID wl.error) := by
  intro wls
  induction wls with
  | nil => intro i wl idx done h; simp at h
  | cons x rest ih =>
    intro i wl idx done hget hne hnok hprev
    cases i with
    | zero =>
      have hx : x = wl := by simpa using hget
      subst hx
      simp only [checkWorkloads, if_neg hne, if_pos hnok, Nat.add_zero]
    | succ i' =>
      have hx : x.state = "" ∨ x.state = stateOk := by
        apply hprev 0 x (Nat.succ_pos i')
        simp
      have hget' : rest[i']? = some wl := by simpa using hget
      have hprev' : ∀ j wl', j < i' → rest[j]? = some wl' →
          wl'.state = "" ∨ wl'.state = stateOk := by
        intro j wl' hj hj2
        apply hprev (j + 1) wl' (by omega)
        simpa using hj2
      have harith : idx + (i' + 1) = (idx + 1) + i' := by omega
      rcases hx with hx | hx
      · simp only [checkWorkloads, if_pos hx, harith]
        exact ih i' wl (idx + 1) false hget' hne hnok hprev'
      · have hxne : ¬ x.state = "" := by rw [hx]; decide
        simp only [checkWorkloads, if_neg hxne, harith]
        rw [if_neg (fun hcon => hcon hx)]
        exact ih i' wl (idx + 1) done hget' hne hnok hprev'

theorem checkWorkloads_pending (deploymentID : Nat) :
    ∀ (wls : List Workload) (idx : Nat) (done : Bool),
      (∀ wl ∈ wls, wl.state = "" ∨ wl.state = stateOk) →
      (∃ wl ∈ wls, wl.state = "") →
      checkWorkloads deploymentID wls idx done = Except.ok false := by
  intro wls
  induction wls with
  | nil => intro idx done _ hex; simp at hex
  | cons x rest ih =>
    intro idx done hall hex
    by_cases hx : x.state = ""
    · simp only [checkWorkloads, if_pos hx]
      -- once `done` is cleared it stays cleared for a benign tail
      clear hex
      have hrest : ∀ wl ∈ rest, wl.state = "" ∨ wl.state = stateOk :=
        fun w hw => hall w (List.mem_cons_of_mem x hw)
      clear hall ih
      induction rest generalizing idx with
      | nil => rfl
      | cons y rest2 ih2 =>
        have hy : y.state = "" ∨ y.state = stateOk := hrest y (List.mem_cons_self y rest2)
        rcases hy with hy | hy
        · simp only [checkWorkloads, if_pos hy]
          exact ih2 (idx + 1) (fun w hw => hrest w (List.mem_cons_of_mem y hw))
        · have hyne : ¬ y.state = "" := by rw [hy]; decide
          simp only [checkWorkloads, if_neg hyne]
          rw [if_neg (fun hcon => hcon hy)]
          exact ih2 (idx + 1) (fun w hw => hrest w (List.mem_cons_of_mem y hw))
    · have hxok : x.state = stateOk := by
        rcases hall x (List.mem_cons_self x rest) with h | h
        · exact absurd h hx
        · exact h
      simp only [checkWorkloads, if_neg hx]
      rw [if_neg (fun hcon => hcon hxok)]
      apply ih (idx + 1) done (fun w hw => hall w (List.mem_cons_of_mem x hw))
      obtain ⟨w, hw, hws⟩ := hex
      rcases List.mem_cons.mp hw with rfl | hw
      · exact absurd hws hx
      · exact ⟨w, hw, hws⟩

theorem timeoutMsg_ne_failMsg (i d : Nat) (e : String) : timeoutMsg d ≠ failMsg i d e := by
  intro h
  have h2 := congrArg (fun s => s.data.get? 1) h
  simp only [timeoutMsg, failMsg, String.data_append, List.cons_append, List.append_assoc,
    List.get?_eq_getElem?, List.getElem?_cons_succ, List.getElem?_cons_zero] at h2
  exact absurd h2 (by decide)

/-- C1: the completion-wait loop returns success only on a fetch whose
every workload has the non-empty success state `ok`; a fetch containing a
(first) workload in a non-empty non-`ok` state makes the loop return, on
that same fetch and regardless of any later fetches, the error carrying
that workload's index, the deployment id and the remote error text; an
exhausted 4-minute budget (no fetches left) yields the timeout error,
which differs from every per-workload failure error. -/
theorem waitDeployment_claim (deploymentID : Nat) :
    (∀ fetches : List Fetch, waitDeployment deploymentID fetches = Except.ok () →
      ∃ (k : Nat) (wls : List Workload), fetches[k]? = some (Except.ok wls) ∧
        ∀ wl ∈ wls, wl.state ≠ "" ∧ wl.state = stateOk) ∧
    (∀ (wls : List Workload) (rest : List Fetch) (i : Nat) (wl : Workload),
      wls[i]? = some wl → wl.state ≠ "" → wl.state ≠ stateOk →
      (∀ j wl', j < i → wls[j]? = some wl' → wl'.state = "" ∨ wl'.state = stateOk) →
      waitDeployment deploymentID (Except.ok wls :: rest) =
        Except.error (failMsg i deploymentID wl.error)) ∧
    (waitDeployment deploymentID [] = Except.error (timeoutMsg deploymentID)) ∧
    (∀ (i : Nat) (e : String), timeoutMsg deploymentID ≠ failMsg i deploymentID e) := by
  refine ⟨?_, ?_, rfl, fun i e => timeoutMsg_ne_failMsg i deploymentID e⟩
  · intro fetches
    induction fetches with
    | nil => intro h; simp [waitDeployment] at h
    | cons f rest ih =>
      intro h
      match f with
      | Except.error e => exact Except.noConfusion h
      | Except.ok wls =>
        simp only [waitDeployment] at h
        rcases hc : checkWorkloads deploymentID wls 0 true with e | b
        · rw [hc] at h; exact Except.noConfusion h
        · rw [hc] at h
          cases b with
          | true =>
            obtain ⟨_, hall⟩ := checkWorkloads_ok_true deploymentID wls 0 true hc
            refine ⟨0, wls, by simp, ?_⟩
            intro wl hwl
            have := hall wl hwl
            exact ⟨by rw [this]; decide, this⟩
          | false =>
            obtain ⟨k, wls', hk, hall⟩ := ih h
            exact ⟨k + 1, wls', by simpa using hk, hall⟩
  · intro wls rest i wl hget hne hnok hprev
    have hc := checkWorkloads_fails deploymentID wls i wl 0 true hget hne hnok hprev
    simp only [waitDeployment, hc, Nat.zero_add]

/-- Witness for `waitDeployment_claim`: a deployment fetch whose second
workload failed with text `boom` makes the loop return the indexed
failure error at once. -/
theorem waitDeployment_claim_witness :
    waitDeployment 7 [Except.ok [⟨"", ""⟩, ⟨"error", "boom"⟩], Except.ok []] =
      Except.error (failMsg 1 7 "boom") := by
  apply (waitDeployment_claim 7).2.1 [⟨"", ""⟩, ⟨"error", "boom"⟩] [Except.ok []] 1 ⟨"error", "boom"⟩
  · rfl
  · decide
  · decide
  · intro j wl' hj hget
    interval_cases j
    · left; exact congrArg Workload.state (Option.some.inj hget).symm

/-! ### Lemmas about `getFreeIP` -/

theorem getFreeIPAux_ok (a b c : Nat) (used : List String) :
    ∀ i s, getFreeIPAux a b c used i = Except.ok s →
      ∃ k, i ≤ k ∧ k ≤ 254 ∧ s = ipStr (ipNet a b c k 32) ∧ isInStr used s = false ∧
        ∀ j, i ≤ j → j < k → isInStr used (ipStr (ipNet a b c j 32)) = true := by
  intro i
  induction i using getFreeIPAux.induct a b c used with
  | case1 i hlt hin ih =>
    intro s hs
    rw [getFreeIPAux, dif_pos hlt] at hs
    simp only [if_pos hin] at hs
    obtain ⟨k, hk1, hk2, hk3, hk4, hk5⟩ := ih s hs
    refine ⟨k, by omega, hk2, hk3, hk4, ?_⟩
    intro j hj1 hj2
    rcases Nat.eq_or_lt_of_le hj1 with rfl | hj
    · exact hin
    · exact hk5 j hj hj2
  | case2 i hlt hin =>
    intro s hs
    rw [getFreeIPAux, dif_pos hlt] at hs
    simp only [if_neg hin] at hs
    refine ⟨i, le_refl i, by omega, (Except.ok.inj hs).symm, ?_, by omega⟩
    cases hs
    simpa using hin
  | case3 i hge =>
    intro s hs
    rw [getFreeIPAux, dif_neg hge] at hs
    exact absurd hs (by simp)

theorem getFreeIPAux_error (a b c : Nat) (used : List String) :
    ∀ i e, getFreeIPAux a b c used i = Except.error e →
      e = "all ips are used" ∧
      ∀ j, i ≤ j → j < 255 → isInStr used (ipStr (ipNet a b c j 32)) = true := by
  intro i
  induction i using getFreeIPAux.induct a b c used with
  | case1 i hlt hin ih =>
    intro e he
    rw [getFreeIPAux, dif_pos hlt] at he
    simp only [if_pos hin] at he
    obtain ⟨he1, he2⟩ := ih e he
    refine ⟨he1, ?_⟩
    intro j hj1 hj2
    rcases Nat.eq_or_lt_of_le hj1 with rfl | hj
    · exact hin
    · exact he2 j hj hj2
  | case2 i hlt hin =>
    intro e he
    rw [getFreeIPAux, dif_pos hlt] at he
    simp only [if_neg hin] at he
    exact absurd he (by simp)
  | case3 i hge =>
    intro e he
    rw [getFreeIPAux, dif_neg hge] at he
    exact ⟨(Except.error.inj he).symm, by omega⟩

theorem getFreeIPAux_error_of_all_used (a b c : Nat) (used : List String) :
    ∀ i, (∀ j, i ≤ j → j < 255 → isInStr used (ipStr (ipNet a b c j 32)) = true) →
      getFreeIPAux a b c used i = Except.error "all ips are used" := by
  intro i
  induction i using getFreeIPAux.induct a b c used with
  | case1 i hlt hin ih =>
    intro hall
    rw [getFreeIPAux, dif_pos hlt]
    simp only [if_pos hin]
    exact ih (fun j hj1 hj2 => hall j (by omega) hj2)
  | case2 i hlt hin =>
    intro hall
    exact absurd (hall i (le_refl i) hlt) (by simpa using hin)
  | case3 i hge =>
    intro _
    rw [getFreeIPAux, dif_neg hge]

/-- C4: `getFreeIP` scans host ids 2..254 (so it never yields `.0`, `.1`
or `.255`), returns the first candidate (built as a `/32` net over the
subnet's first three octets) whose dotted form is not in the used list,
errors with `all ips are used` exactly when every host id 2..254 is
used, and never returns an address in the used list, so re-seeding the
used list with the result never repeats an address before exhaustion. -/
theorem getFreeIP_claim (a b c : Nat) (used : List String) :
    (∀ s, getFreeIP a b c used = Except.ok s →
      ∃ k, 2 ≤ k ∧ k ≤ 254 ∧ s = ipStr (ipNet a b c k 32) ∧ isInStr used s = false ∧
        ∀ j, 2 ≤ j → j < k → isInStr used (ipStr (ipNet a b c j 32)) = true) ∧
    (getFreeIP a b c used = Except.error "all ips are used" ↔
      ∀ j, 2 ≤ j → j ≤ 254 → isInStr used (ipStr (ipNet a b c j 32)) = true) ∧
    (∀ s, getFreeIP a b c used = Except.ok s →
      getFreeIP a b c (s :: used) ≠ Except.ok s) := by
  refine ⟨fun s hs => getFreeIPAux_ok a b c used 2 s hs, ⟨?_, ?_⟩, ?_⟩
  · intro he j hj1 hj2
    exact (getFreeIPAux_error a b c used 2 _ he).2 j hj1 (by omega)
  · intro hall
    exact getFreeIPAux_error_of_all_used a b c used 2
      (fun j hj1 hj2 => hall j hj1 (by omega))
  · intro s _ hrepeat
    obtain ⟨k, _, _, _, hfree, _⟩ := getFreeIPAux_ok a b c (s :: used) 2 s hrepeat
    simp [isInStr] at hfree

/-- Witness for `getFreeIP_claim`: in `10.1.1.0/24` with `10.1.1.2`
already used, the allocator returns `10.1.1.3`, which is itself not
used. -/
theorem getFreeIP_claim_witness :
    ∃ k, 2 ≤ k ∧ k ≤ 254 ∧ "10.1.1.3" = ipStr (ipNet 10 1 1 k 32) ∧
      isInStr ["10.1.1.2"] "10.1.1.3" = false ∧
      ∀ j, 2 ≤ j → j < k → isInStr ["10.1.1.2"] (ipStr (ipNet 10 1 1 j 32)) = true :=
  (getFreeIP_claim 10 1 1 ["10.1.1.2"]).1 "10.1.1.3" (by
    unfold getFreeIP getFreeIPAux
    simp +decide [isInStr, ipStr, ipNet]
    unfold getFreeIPAux
    simp +decide [isInStr, ipStr, ipNet])

/-! ### The busy-wait trace of `waitDeployment` (claim C8) -/

/-- C8 (refuting evidence): every action the completion-wait loop
performs is an agent fetch — its trace is fetches only, with no delay
action of any duration between consecutive fetches, because the source
loop body contains no sleep call. -/
theorem waitDeploymentTrace_fetch_only (deploymentID : Nat) (fetches : List Fetch) :
    waitDeploymentTrace deploymentID fetches =
      List.replicate (waitDeploymentTrace deploymentID fetches).length PollAction.fetch := by
  induction fetches with
  | nil => rfl
  | cons f rest ih =>
    match f with
    | Except.error e => rfl
    | Except.ok wls =>
      simp only [waitDeploymentTrace]
      rcases hc : checkWorkloads deploymentID wls 0 true with e | b
      · rfl
      · cases b with
        | true => rfl
        | false =>
          simp only [List.length_cons, List.replicate_succ, List.cons.injEq, true_and]
          exact ih

/-! ### The resource records and the diff engine
(`diskHasChanged`, `zdbHasChanged`, `vmHasChanged`) -/

/-- A machine mount binding (`disk_name`, `mount_point`). -/
structure Mount where
  disk_name : String
  mount_point : String
  deriving DecidableEq, Repr

/-- A machine environment variable (`key`, `value`). -/
structure EnvVar where
  key : String
  value : String
  deriving DecidableEq, Repr

/-- A disk record as stored in the `disks` state list. -/
structure Disk where
  name : String
  size : Nat
  description : String
  version : Nat
  deriving DecidableEq, Repr

/-- A zdb (storage node) record as stored in the `zdbs` state list. -/
structure Zdb where
  name : String
  password : String
  size : Nat
  description : String
  version : Nat
  mode : String
  deriving DecidableEq, Repr

/-- A machine record as stored in the `vms` state list. -/
structure VM where
  name : String
  flist : String
  version : Nat
  ip : String
  cpu : Nat
  memory : Nat
  entrypoint : String
  mounts : List Mount
  env_vars : List EnvVar
  deriving DecidableEq, Repr

/-- `diskHasChanged(disk, oldDisks)`: scan the prior list for a record
with the same name; on a match report whether description or size
differs, together with the matched prior record; with no match report
`(false, none)`. -/
def diskHasChanged (disk : Disk) (oldDisks : List Disk) : Bool × Option Disk :=
  match oldDisks with
  | [] => (false, none)
  | d :: rest =>
    if d.name = disk.name then
      if d.description ≠ disk.description ∨ d.size ≠ disk.size then (true, some d)
      else (false, some d)
    else diskHasChanged disk rest

/-- `zdbHasChanged(zdb, oldZdbs)`: like `diskHasChanged`, matching by
name and comparing password, size, description and mode. -/
def zdbHasChanged (zdb : Zdb) (oldZdbs : List Zdb) : Bool × Option Zdb :=
  match oldZdbs with
  | [] => (false, none)
  | d :: rest =>
    if d.name = zdb.name then
      if d.password ≠ zdb.password ∨ d.size ≠ zdb.size ∨ d.description ≠ zdb.description ∨
          d.mode ≠ zdb.mode then (true, some d)
      else (false, some d)
    else zdbHasChanged zdb rest

/-- `vmHasChanged(vm, oldVms)`: matches by name AND flist. The source's
changed test is
`vmData["cpu"] != vm["cpu"] || vmData["memory"] != vm["memory"] ||
 vmData["entrypoint"] != vm["entrypoint"] ||
 reflect.DeepEqual(vmData["mounts"], vm["mounts"]) ||
 reflect.DeepEqual(vmData["env_vars"], vm["env_vars"])` —
note that the two `reflect.DeepEqual` calls are NOT negated, so equal
mount lists (or equal env lists) make the test report a change. The
embedding reproduces this verbatim: `DeepEqual` is list equality. -/
def vmHasChanged (vm : VM) (oldVms : List VM) : Bool × Option VM :=
  match oldVms with
  | [] => (false, none)
  | m :: rest =>
    if m.name = vm.name ∧ m.flist = vm.flist then
      if m.cpu ≠ vm.cpu ∨ m.memory ≠ vm.memory ∨ m.entrypoint ≠ vm.entrypoint ∨
          m.mounts = vm.mounts ∨ m.env_vars = vm.env_vars then (true, some m)
      else (false, some m)
    else vmHasChanged vm rest

/-- `gridtypes.Gigabyte`. -/
def gigabyte : Nat := 1024 * 1024 * 1024

/-- `gridtypes.Megabyte`. -/
def megabyte : Nat := 1024 * 1024

/-- The disk workload built by create/update: name, version,
description, and the `ZMount` payload size in bytes. -/
structure DiskWorkload where
  name : String
  version : Nat
  description : String
  size : Nat
  deriving DecidableEq, Repr

/-- The zdb workload built by create/update: name, version, description,
and the `ZDB` payload (size, mode, encrypted password as supplied by the
ECDH collaborator). -/
structure ZdbWorkload where
  name : String
  version : Nat
  description : String
  size : Nat
  mode : String
  password : String
  deriving DecidableEq, Repr

/-- The machine workload built by create/update: version, name and the
`ZMachine` payload — flist, the single network interface (network name
and IP), compute capacity, entrypoint, mounts and environment pairs
(the source folds the pairs into a Go map keyed by `key`). -/
structure VMWorkload where
  version : Nat
  name : String
  flist : String
  networkName : String
  ip : String
  cpu : Nat
  memory : Nat
  entrypoint : String
  mounts : List Mount
  env : List EnvVar
  deriving DecidableEq, Repr

/-- The per-machine body of the create loop in
`resourceDeploymentCreate`: allocate the next free IP from the range,
record it in the machine's state entry (with version `Version = 0`),
build the machine workload whose interface carries the declared
`network_name` and the allocated IP, and append the IP to the used
list. -/
def vmCreateStep (networkName : String) (a b c : Nat) (usedIPs : List String) (vm : VM) :
    Except String (VM × VMWorkload × List String) :=
  match getFreeIP a b c usedIPs with
  | Except.error e => Except.error e
  | Except.ok freeIP =>
    Except.ok
      ({ vm with version := 0, ip := freeIP },
       { version := 0, name := vm.name, flist := vm.flist, networkName := networkName,
         ip := freeIP, cpu := vm.cpu, memory := vm.memory * megabyte,
         entrypoint := vm.entrypoint, mounts := vm.mounts, env := vm.env_vars },
       usedIPs ++ [freeIP])

/-- The version computation shared by the three update loops in
`resourceDeploymentUpdate`: `version := 0`, then `old.version + 1` on a
matched change and `old.version` on a match with no change. -/
def nextVersion (changed : Bool) (oldVersion : Option Nat) : Nat :=
  match changed, oldVersion with
  | true, some v => v + 1
  | false, some v => v
  | _, none => 0

/-- The per-disk body of the update loop: record the computed version in
state and carry the same version on the disk workload. -/
def diskUpdateStep (disk : Disk) (oldDisks : List Disk) : Disk × DiskWorkload :=
  let r := diskHasChanged disk oldDisks
  let version := nextVersion r.1 (r.2.map Disk.version)
  ({ disk with version := version },
   { name := disk.name, version := version, description := disk.description,
     size := disk.size * gigabyte })

/-- The per-zdb body of the update loop: the computed version is
recorded in state, but the workload descriptor is built with the
package constant `Version` (0), not the computed version — the source
writes `Version: Version` where the disk and machine loops write the
computed value. -/
def zdbUpdateStep (enc : String → String) (zdb : Zdb) (oldZdbs : List Zdb) :
    Zdb × ZdbWorkload :=
  let r := zdbHasChanged zdb oldZdbs
  let version := nextVersion r.1 (r.2.map Zdb.version)
  ({ zdb with version := version },
   { name := zdb.name, version := 0, description := zdb.description,
     size := zdb.size, mode := zdb.mode, password := enc zdb.password })

/-- The per-machine body of the update loop: the computed version is
recorded in state and on the workload, but the machine workload's
network interface is built with the hardcoded network name `"network"`
and the hardcoded IP `"10.1.1.3"`, not the name/IP assigned on
create. -/
def vmUpdateStep (vm : VM) (oldVms : List VM) : VM × VMWorkload :=
  let r := vmHasChanged vm oldVms
  let version := nextVersion r.1 (r.2.map VM.version)
  ({ vm with version := version },
   { version := version, name := vm.name, flist := vm.flist, networkName := "network",
     ip := "10.1.1.3", cpu := vm.cpu, memory := vm.memory * megabyte,
     entrypoint := vm.entrypoint, mounts := vm.mounts, env := vm.env_vars })

/-- A declared machine identical to its prior record, used to exhibit
the diff engine's behaviour on unchanged machines. -/
def web1 : VM :=
  { name := "web1", flist := "https://hub.grid.tf/base.flist", version := 0,
    ip := "10.1.1.2", cpu := 1, memory := 1024, entrypoint := "/sbin/init",
    mounts := [⟨"disk1", "/data"⟩], env_vars := [⟨"KEY", "VALUE"⟩] }

/-- An unchanged disk/zdb pair for the same comparison. -/
def disk1 : Disk := { name := "disk1", size := 10, description := "volume", version := 2 }

/-- An unchanged zdb record. -/
def zdb1 : Zdb :=
  { name := "zdb1", password := "pw", size := 10, description := "kv", version := 2,
    mode := "seq" }

/-- C2 (refuting evidence): a machine identical to its prior record in
every tracked field is reported as CHANGED by `vmHasChanged` (the
un-negated `reflect.DeepEqual` on equal mount lists fires), and a
machine differing only in its mount set and env set is reported as
UNCHANGED — while the disk and zdb comparisons behave as the claim
states on identical records. -/
theorem vmHasChanged_identical_reports_changed :
    vmHasChanged web1 [web1] = (true, some web1) ∧
    vmHasChanged { web1 with mounts := [⟨"disk2", "/data2"⟩], env_vars := [⟨"K2", "V2"⟩] }
        [web1] = (false, some web1) ∧
    diskHasChanged disk1 [disk1] = (false, some disk1) ∧
    zdbHasChanged zdb1 [zdb1] = (false, some zdb1) := by
  refine ⟨?_, ?_, ?_, ?_⟩ <;> decide

/-- C3 (refuting evidence): on the update path the zdb workload
descriptor always carries version 0 (the package constant), so a
changed zdb whose prior version is 0 is recorded in state with
version 1 while its submitted workload descriptor says version 0; the
disk and machine update loops carry the computed version on the
descriptor. -/
theorem zdbUpdate_workload_version_mismatch :
    ((zdbUpdateStep id { zdb1 with password := "pw2", version := 0 }
        [{ zdb1 with version := 0 }]).1.version = 1 ∧
     (zdbUpdateStep id { zdb1 with password := "pw2", version := 0 }
        [{ zdb1 with version := 0 }]).2.version = 0) ∧
    (∀ (enc : String → String) (z : Zdb) (olds : List Zdb),
      (zdbUpdateStep enc z olds).2.version = 0) ∧
    (∀ (d : Disk) (olds : List Disk),
      (diskUpdateStep d olds).2.version = (diskUpdateStep d olds).1.version) ∧
    (∀ (v : VM) (olds : List VM),
      (vmUpdateStep v olds).2.version = (vmUpdateStep v olds).1.version) := by
  exact ⟨⟨by decide, by decide⟩, fun _ _ _ => rfl, fun _ _ => rfl, fun _ _ => rfl⟩

/-- C6 (refuting evidence): machine `web1` declared with CPU=1 is
created in network `net1` with the allocated IP `10.1.1.2` on its
workload interface; updating only CPU to 2 does produce version 1, but
the update-path workload interface carries the hardcoded network name
`"network"` and hardcoded IP `"10.1.1.3"` instead of the created
name/IP. -/
theorem updateVM_hardcodes_interface :
    (vmCreateStep "net1" 10 1 1 [] { web1 with ip := "", mounts := [], env_vars := [] } =
      Except.ok
        ({ web1 with ip := "10.1.1.2", mounts := [], env_vars := [] },
         { version := 0, name := "web1", flist := "https://hub.grid.tf/base.flist",
           networkName := "net1", ip := "10.1.1.2", cpu := 1, memory := 1024 * megabyte,
           entrypoint := "/sbin/init", mounts := [], env := [] },
         ["10.1.1.2"])) ∧
    (let prior : VM := { web1 with ip := "10.1.1.2", mounts := [], env_vars := [] }
     let step := vmUpdateStep { prior with cpu := 2 } [prior]
     step.1.version = 1 ∧ step.1.ip = "10.1.1.2" ∧
     step.2.version = 1 ∧ step.2.networkName = "network" ∧ step.2.ip = "10.1.1.3") := by
  constructor
  · unfold vmCreateStep getFreeIP getFreeIPAux
    simp +decide [isInStr, ipStr, ipNet, web1, megabyte]
  · refine ⟨?_, ?_, ?_, ?_, ?_⟩ <;> decide

/-! ### Network topology generation (`resource_network.go`) -/

/-- The static node-id-to-address map built inside `getNodeEndpoint`;
a Go map lookup of a missing key yields the empty string. -/
def nodeIps (nodeId : Nat) : String :=
  if nodeId = 1 then "2a02:1802:5e:16:ec4:7aff:fe30:65b4"
  else if nodeId = 2 then "2a02:1802:5e:16:225:90ff:fef5:582e"
  else if nodeId = 3 then "2a02:1802:5e:16:225:90ff:fef5:6d02"
  else if nodeId = 4 then "2a02:1802:5e:16:225:90ff:fe87:d7b4"
  else ""

/-- `getNodeEndpoint(nodeId, wgPort)`:
`fmt.Sprintf("[%s]:%d", nodeIps[nodeId], wgPort)`. -/
def getNodeEndpoint (nodeId wgPort : Nat) : String :=
  "[" ++ nodeIps nodeId ++ "]:" ++ toString wgPort

/-- `wgIP(ip)`: the overlay `/32` address `100.64.b.c` built from the
subnet's second and third octets. -/
def wgIP (ip : IPNet) : IPNet :=
  ipNet 100 64 ip.b ip.c 32

/-- A wireguard peer entry (`zos.Peer`): subnet, peer public key,
endpoint and allowed-IP set. -/
structure Peer where
  subnet : IPNet
  wgPublicKey : String
  endpoint : String
  allowedIPs : List IPNet
  deriving DecidableEq, Repr

/-- The network-type workload (`zos.Network`) embedded in each per-node
deployment. -/
structure NetworkWorkload where
  networkIPRange : String
  subnet : IPNet
  wgPrivateKey : String
  wgListenPort : Nat
  peers : List Peer
  deriving DecidableEq, Repr

/-- The per-node deployment wrapper built by `generateDeployments`
(version, owning twin, single network workload; signing and structural
validation are collaborator calls on the Go side). -/
structure NetDeployment where
  version : Nat
  twinID : Nat
  workloads : List NetworkWorkload
  deriving DecidableEq, Repr

/-- `NetworkConfiguration`, generic over the wireguard key type `K`
(key generation and public-key derivation are external collaborators;
the embedded functions receive the derivations as parameters). The Go
maps are modelled as total functions — every id the generator touches
is populated by its callers. -/
structure NetworkConfiguration (K : Type) where
  nodeIDs : List Nat
  keys : Nat → K
  versions : Nat → Int
  deploymentIDs : Nat → Int
  ips : Nat → IPNet
  wgPort : Nat → Nat
  publicNodeID : Nat
  externalNodeIP : IPNet
  externalNodeKey : K

/-- `generateWGConfig` — the raw-string template filled with the given
address, access private key, node public key, allowed range and
endpoint. -/
def generateWGConfig (Address AccessPrivatekey NodePublicKey NodeEndpoint
    NetworkIPRange : String) : String :=
  "\n[Interface]\nAddress = " ++ Address ++ "\nPrivateKey = " ++ AccessPrivatekey
    ++ "\n[Peer]\nPublicKey = " ++ NodePublicKey ++ "\nAllowedIPs = " ++ NetworkIPRange
    ++ ", 100.64.0.0/16\nPersistentKeepalive = 25\nEndpoint = " ++ NodeEndpoint ++ "\n\t"

/-- The peer entry built for neighbour `neigh` in the inner loop of
`generateDeployments`: its subnet, public key, endpoint from the static
map, and allowed IPs {subnet, overlay address}, augmented with the
external subnet and its overlay address when the neighbour is the
public node. -/
def peerForNeighbor {K : Type} (pub : K → String) (nc : NetworkConfiguration K)
    (neigh : Nat) : Peer :=
  { subnet := nc.ips neigh,
    wgPublicKey := pub (nc.keys neigh),
    endpoint := getNodeEndpoint neigh (nc.wgPort neigh),
    allowedIPs := [nc.ips neigh, wgIP (nc.ips neigh)] ++
      (if neigh = nc.publicNodeID then [nc.externalNodeIP, wgIP nc.externalNodeIP] else []) }

/-- The external access-point peer appended to the public node's peer
list: the external subnet and key, and no endpoint (the access point
dials in; the Go struct's endpoint field stays its zero value). -/
def externalPeer {K : Type} (pub : K → String) (nc : NetworkConfiguration K) : Peer :=
  { subnet := nc.externalNodeIP,
    wgPublicKey := pub nc.externalNodeKey,
    endpoint := "",
    allowedIPs := [nc.externalNodeIP, wgIP nc.externalNodeIP] }

/-- The peer list of `node`'s deployment: every other declared node in
declaration order, plus the external peer when `node` is the public
node. -/
def nodePeers {K : Type} (pub : K → String) (nc : NetworkConfiguration K)
    (node : Nat) : List Peer :=
  (nc.nodeIDs.filter (fun neigh => node != neigh)).map (peerForNeighbor pub nc) ++
    (if node = nc.publicNodeID then [externalPeer pub nc] else [])

/-- The access configuration generated from the public node's
perspective: constant interface address `100.64.1.2`, the external
key's private string, the public node's derived public key, constant
remote address `185.206.122.31` with the public node's port, and
constant allowed range `10.1.0.0/16`. -/
def accessWGConfig {K : Type} (pub keyStr : K → String) (nc : NetworkConfiguration K) : String :=
  generateWGConfig "100.64.1.2" (keyStr nc.externalNodeKey) (pub (nc.keys nc.publicNodeID))
    ("185.206.122.31:" ++ toString (nc.wgPort nc.publicNodeID)) "10.1.0.0/16"

/-- The deployment built for `node`: version `Version = 0`, the caller's
twin id, and one network workload carrying the constant `10.1.0.0/16`
range, the node's subnet, private key, listen port and peer list. -/
def nodeDeployment {K : Type} (pub keyStr : K → String) (twinID : Nat)
    (nc : NetworkConfiguration K) (node : Nat) : NetDeployment :=
  { version := 0,
    twinID := twinID,
    workloads := [{ networkIPRange := "10.1.0.0/16", subnet := nc.ips node,
                    wgPrivateKey := keyStr (nc.keys node), wgListenPort := nc.wgPort node,
                    peers := nodePeers pub nc node }] }

/-- The result of `generateDeployments`: the deployments in node order;
`wgAccessConfigs` records one entry per loop iteration in which the
source assigns `WGAccessConfiguration` (the iterations whose node is the
public node), and the final field value is the last assignment (the
empty string when there was none). -/
structure DeploymentInformation where
  wgAccessConfigs : List String
  wgAccessConfiguration : String
  deployments : List NetDeployment
  deriving Repr

/-- `(*NetworkConfiguration).generateDeployments(userInfo)`. -/
def generateDeployments {K : Type} (pub keyStr : K → String) (twinID : Nat)
    (nc : NetworkConfiguration K) : DeploymentInformation :=
  let configs := (nc.nodeIDs.filter (fun node => node == nc.publicNodeID)).map
    (fun _ => accessWGConfig pub keyStr nc)
  { wgAccessConfigs := configs,
    wgAccessConfiguration := configs.getLastD "",
    deployments := nc.nodeIDs.map (nodeDeployment pub keyStr twinID nc) }

/-- `needle` occurs as a contiguous substring of `hay`. -/
def containsStr (hay needle : String) : Prop := needle.data <:+: hay.data

instance (hay needle : String) : Decidable (containsStr hay needle) := by
  unfold containsStr
  infer_instance

/-! ### Theorems about topology generation -/

/-- C5: under distinct declared nodes with pairwise distinct subnets
that also differ from the external subnet, the deployment generated for
node `A` carries exactly one peer entry for any other node `B` — the
entry holding `B`'s subnet also holds `B`'s public key and `B`'s
endpoint — and no entry carrying `A`'s own subnet (no self-loop).
Symmetry follows by exchanging `A` and `B`. -/
theorem generateDeployments_symmetric {K : Type} (pub keyStr : K → String) (twinID : Nat)
    (nc : NetworkConfiguration K)
    (hnodup : nc.nodeIDs.Nodup)
    (hinj : ∀ a ∈ nc.nodeIDs, ∀ b ∈ nc.nodeIDs, nc.ips a = nc.ips b → a = b)
    (hext : ∀ a ∈ nc.nodeIDs, nc.ips a ≠ nc.externalNodeIP)
    (A B : Nat) (hA : A ∈ nc.nodeIDs) (hB : B ∈ nc.nodeIDs) (hAB : A ≠ B)
    (i : Nat) (hi : nc.nodeIDs[i]? = some A) :
    ∃ dl, (generateDeployments pub keyStr twinID nc).deployments[i]? = some dl ∧
      ∃ wl, dl.workloads = [wl] ∧
        wl.peers.countP (fun p => p.subnet == nc.ips B) = 1 ∧
        (∀ p ∈ wl.peers, p.subnet = nc.ips B →
          p.wgPublicKey = pub (nc.keys B) ∧ p.endpoint = getNodeEndpoint B (nc.wgPort B)) ∧
        (∀ p ∈ wl.peers, p.subnet ≠ nc.ips A) := by
  refine ⟨nodeDeployment pub keyStr twinID nc A, ?_, ?_⟩
  · simp [generateDeployments, hi]
  refine ⟨_, rfl, ?_, ?_, ?_⟩
  · show (nodePeers pub nc A).countP (fun p => p.subnet == nc.ips B) = 1
    unfold nodePeers
    rw [List.countP_append, List.countP_map]
    have h1 : List.countP ((fun p => p.subnet == nc.ips B) ∘ peerForNeighbor pub nc)
        (nc.nodeIDs.filter (fun neigh => A != neigh)) =
        List.countP (fun n => n == B) (nc.nodeIDs.filter (fun neigh => A != neigh)) := by
      apply List.countP_congr
      intro n hn
      have hn' : n ∈ nc.nodeIDs := List.mem_of_mem_filter hn
      simp only [Function.comp, peerForNeighbor, beq_iff_eq]
      constructor
      · intro h; exact hinj n hn' B hB h
      · intro h; rw [h]
    rw [h1]
    have h2 : List.countP (fun n => n == B) (nc.nodeIDs.filter (fun neigh => A != neigh)) =
        (nc.nodeIDs.filter (fun neigh => A != neigh)).count B := rfl
    rw [h2]
    have h3 : (nc.nodeIDs.filter (fun neigh => A != neigh)).count B = nc.nodeIDs.count B := by
      rw [List.count_filter]
      simp [bne_iff_ne, hAB]
    rw [h3, List.count_eq_one_of_mem hnodup hB]
    have h4 : List.countP (fun p => p.subnet == nc.ips B)
        (if A = nc.publicNodeID then [externalPeer pub nc] else []) = 0 := by
      by_cases hA2 : A = nc.publicNodeID
      · rw [if_pos hA2]
        simp only [List.countP_cons, List.countP_nil]
        have hne : nc.externalNodeIP ≠ nc.ips B := fun h => hext B hB h.symm
        simp [externalPeer, hne]
      · rw [if_neg hA2]; rfl
    rw [h4]
  · intro p hp hsub
    rcases List.mem_append.mp hp with hp | hp
    · obtain ⟨n, hn, rfl⟩ := List.mem_map.mp hp
      have hn' : n ∈ nc.nodeIDs := List.mem_of_mem_filter hn
      have hnB : n = B := hinj n hn' B hB hsub
      rw [hnB]
      exact ⟨rfl, rfl⟩
    · have hp' : p = externalPeer pub nc := by
        by_cases hA2 : A = nc.publicNodeID
        · rw [if_pos hA2] at hp; simpa using hp
        · rw [if_neg hA2] at hp; simp at hp
      rw [hp'] at hsub
      exact absurd hsub.symm (hext B hB)
  · intro p hp hsub
    rcases List.mem_append.mp hp with hp | hp
    · obtain ⟨n, hn, rfl⟩ := List.mem_map.mp hp
      have hn' : n ∈ nc.nodeIDs := List.mem_of_mem_filter hn
      have hne : A ≠ n := by
        have := List.of_mem_filter hn
        simpa [bne_iff_ne] using this
      exact hne (hinj A hA n hn' hsub.symm)
    · have hp' : p = externalPeer pub nc := by
        by_cases hA2 : A = nc.publicNodeID
        · rw [if_pos hA2] at hp; simpa using hp
        · rw [if_neg hA2] at hp; simp at hp
      rw [hp'] at hsub
      exact absurd hsub.symm (hext A hA)

/-- A concrete public-key derivation used by the witnesses: any
injective-looking tagging does, since the theorems hold for every
derivation. -/
def pubF : String → String := fun k => "pub-" ++ k

/-- A concrete two-node network configuration mirroring
`resourceNetworkCreate`: nodes 1 and 2, subnets `10.1.(idx+3).0/24`,
external subnet `10.1.2.0/24`, public node 1. -/
def nc5 : NetworkConfiguration String :=
  { nodeIDs := [1, 2],
    keys := fun n => "key" ++ toString n,
    versions := fun _ => 0,
    deploymentIDs := fun _ => 0,
    ips := fun n => ipNet 10 1 (2 + n) 0 24,
    wgPort := fun n => 3000 + n,
    publicNodeID := 1,
    externalNodeIP := ipNet 10 1 2 0 24,
    externalNodeKey := "extkey" }

/-- Witness for `generateDeployments_symmetric` on the two-node run. -/
theorem generateDeployments_symmetric_witness :
    ∃ dl, (generateDeployments pubF id 13 nc5).deployments[0]? = some dl ∧
      ∃ wl, dl.workloads = [wl] ∧
        wl.peers.countP (fun p => p.subnet == nc5.ips 2) = 1 ∧
        (∀ p ∈ wl.peers, p.subnet = nc5.ips 2 →
          p.wgPublicKey = pubF (nc5.keys 2) ∧ p.endpoint = getNodeEndpoint 2 (nc5.wgPort 2)) ∧
        (∀ p ∈ wl.peers, p.subnet ≠ nc5.ips 1) :=
  generateDeployments_symmetric pubF id 13 nc5 (by decide) (by decide) (by decide)
    1 2 (by decide) (by decide) (by decide) 0 rfl

/-- C9: the static endpoint map knows only node ids 1..4 (each mapped to
its hardcoded IPv6 address); any other node id yields the endpoint
`"[]:<port>"` with an empty address and no error, and a topology run
containing such a node id produces, in every other node's deployment, a
peer entry for it whose endpoint is exactly that unusable string. -/
theorem getNodeEndpoint_claim :
    (∀ wgPort : Nat,
      getNodeEndpoint 1 wgPort = "[2a02:1802:5e:16:ec4:7aff:fe30:65b4]:" ++ toString wgPort ∧
      getNodeEndpoint 2 wgPort = "[2a02:1802:5e:16:225:90ff:fef5:582e]:" ++ toString wgPort ∧
      getNodeEndpoint 3 wgPort = "[2a02:1802:5e:16:225:90ff:fef5:6d02]:" ++ toString wgPort ∧
      getNodeEndpoint 4 wgPort = "[2a02:1802:5e:16:225:90ff:fe87:d7b4]:" ++ toString wgPort) ∧
    (∀ nodeId wgPort : Nat, nodeId ∉ ([1, 2, 3, 4] : List Nat) →
      getNodeEndpoint nodeId wgPort = "[]:" ++ toString wgPort) ∧
    (∀ (K : Type) (pub keyStr : K → String) (twinID : Nat) (nc : NetworkConfiguration K)
      (A B i : Nat), nc.nodeIDs[i]? = some A → B ∈ nc.nodeIDs → A ≠ B →
      ∃ dl, (generateDeployments pub keyStr twinID nc).deployments[i]? = some dl ∧
        ∃ wl, dl.workloads = [wl] ∧ ∃ p ∈ wl.peers,
          p.subnet = nc.ips B ∧ p.endpoint = getNodeEndpoint B (nc.wgPort B)) := by
  refine ⟨?_, ?_, ?_⟩
  · intro wgPort
    refine ⟨?_, ?_, ?_, ?_⟩ <;> (unfold getNodeEndpoint; congr 1)
  · intro nodeId wgPort hni
    simp only [List.mem_cons, not_or] at hni
    obtain ⟨h1, h2, h3, h4, -⟩ := hni
    unfold getNodeEndpoint nodeIps
    rw [if_neg h1, if_neg h2, if_neg h3, if_neg h4]
    congr 1
  · intro K pub keyStr twinID nc A B i hi hB hAB
    refine ⟨nodeDeployment pub keyStr twinID nc A, by simp [generateDeployments, hi],
      _, rfl, ?_⟩
    refine ⟨peerForNeighbor pub nc B, ?_, rfl, rfl⟩
    show _ ∈ nodePeers pub nc A
    unfold nodePeers
    apply List.mem_append_left
    apply List.mem_map_of_mem
    rw [List.mem_filter]
    exact ⟨hB, by simpa [bne_iff_ne] using hAB⟩

/-- Witness for `getNodeEndpoint_claim`: node 5 gets the unusable
endpoint, and in a run over nodes {1, 5} node 1's deployment carries a
peer for node 5 with that endpoint. -/
theorem getNodeEndpoint_claim_witness :
    (getNodeEndpoint 5 3005 = "[]:" ++ toString 3005) ∧
    (∃ dl, (generateDeployments pubF id 13
        { nc5 with nodeIDs := [1, 5] }).deployments[0]? = some dl ∧
      ∃ wl, dl.workloads = [wl] ∧ ∃ p ∈ wl.peers,
        p.subnet = ipNet 10 1 7 0 24 ∧ p.endpoint = getNodeEndpoint 5 3005) :=
  ⟨getNodeEndpoint_claim.2.1 5 3005 (by decide),
   getNodeEndpoint_claim.2.2 String pubF id 13 { nc5 with nodeIDs := [1, 5] }
     1 5 0 rfl (by decide) (by decide)⟩

/-- C7 (refuting evidence): on the two-node run with the source's own
external subnet `10.1.2.0/24`, exactly one access configuration is
generated, and it does not contain the external access subnet among its
allowed IPs (nor anywhere else in its text): the allowed-IP line is the
constant `10.1.0.0/16, 100.64.0.0/16`. -/
theorem accessConfig_missing_external_subnet :
    (generateDeployments pubF id 13 nc5).wgAccessConfigs.length = 1 ∧
    ipNetStr nc5.externalNodeIP = "10.1.2.0/24" ∧
    ¬ containsStr (generateDeployments pubF id 13 nc5).wgAccessConfiguration
        (ipNetStr nc5.externalNodeIP) := by
  refine ⟨rfl, by decide, by decide⟩

/-- C7 as amended: whenever the designated public node is among the
declared nodes (given distinct node ids), exactly one access
configuration string is produced; it embeds the public node's real
public key, and its allowed-IP set is the constant
`10.1.0.0/16, 100.64.0.0/16` — not the external access subnet. -/
theorem accessConfig_amended {K : Type} (pub keyStr : K → String) (twinID : Nat)
    (nc : NetworkConfiguration K)
    (hnodup : nc.nodeIDs.Nodup) (hpub : nc.publicNodeID ∈ nc.nodeIDs) :
    (generateDeployments pub keyStr twinID nc).wgAccessConfigs =
      [accessWGConfig pub keyStr nc] ∧
    (generateDeployments pub keyStr twinID nc).wgAccessConfiguration =
      accessWGConfig pub keyStr nc ∧
    containsStr (accessWGConfig pub keyStr nc)
      ("PublicKey = " ++ pub (nc.keys nc.publicNodeID)) ∧
    containsStr (accessWGConfig pub keyStr nc)
      "AllowedIPs = 10.1.0.0/16, 100.64.0.0/16" := by
  have hfilter : nc.nodeIDs.filter (fun node => node == nc.publicNodeID) =
      [nc.publicNodeID] := by
    rw [List.filter_beq]
    rw [List.count_eq_one_of_mem hnodup hpub]
    rfl
  have hconfigs : (generateDeployments pub keyStr twinID nc).wgAccessConfigs =
      [accessWGConfig pub keyStr nc] := by
    show ((nc.nodeIDs.filter (fun node => node == nc.publicNodeID)).map
      (fun _ => accessWGConfig pub keyStr nc)) = _
    rw [hfilter]
    rfl
  refine ⟨hconfigs, ?_, ?_, ?_⟩
  · show ((nc.nodeIDs.filter (fun node => node == nc.publicNodeID)).map
      (fun _ => accessWGConfig pub keyStr nc)).getLastD "" = _
    rw [hfilter]
    rfl
  · refine ⟨("\n[Interface]\nAddress = 100.64.1.2\nPrivateKey = " ++
        keyStr nc.externalNodeKey ++ "\n[Peer]\n").data,
      ("\nAllowedIPs = 10.1.0.0/16, 100.64.0.0/16\nPersistentKeepalive = 25\nEndpoint = " ++
        ("185.206.122.31:" ++ toString (nc.wgPort nc.publicNodeID)) ++ "\n\t").data, ?_⟩
    show _ ++ _ ++ _ = _
    simp [accessWGConfig, generateWGConfig, String.data_append, List.append_assoc]
  · refine ⟨("\n[Interface]\nAddress = 100.64.1.2\nPrivateKey = " ++
        keyStr nc.externalNodeKey ++ "\n[Peer]\nPublicKey = " ++
        pub (nc.keys nc.publicNodeID) ++ "\n").data,
      ("\nPersistentKeepalive = 25\nEndpoint = " ++
        ("185.206.122.31:" ++ toString (nc.wgPort nc.publicNodeID)) ++ "\n\t").data, ?_⟩
    show _ ++ _ ++ _ = _
    simp [accessWGConfig, generateWGConfig, String.data_append, List.append_assoc]

/-- Witness for `accessConfig_amended` on the two-node run. -/
theorem accessConfig_amended_witness :
    (generateDeployments pubF id 13 nc5).wgAccessConfigs =
      [accessWGConfig pubF id nc5] ∧
    (generateDeployments pubF id 13 nc5).wgAccessConfiguration =
      accessWGConfig pubF id nc5 ∧
    containsStr (accessWGConfig pubF id nc5) ("PublicKey = " ++ pubF (nc5.keys 1)) ∧
    containsStr (accessWGConfig pubF id nc5)
      "AllowedIPs = 10.1.0.0/16, 100.64.0.0/16" :=
  accessConfig_amended pubF id 13 nc5 (by decide) (by decide)

/-- C10: every generated access configuration equals the fixed template
with interface address `100.64.1.2`, remote endpoint address
`185.206.122.31` (plus the public node's port), allowed-IP set
`10.1.0.0/16, 100.64.0.0/16` and keepalive 25; the only varying parts
are the external key's private string and the public node's derived
public key and port — nothing depends on the declared ip range, the
external node's subnet, or which node id is designated public. -/
theorem accessConfig_constants {K : Type} (pub keyStr : K → String) (twinID : Nat)
    (nc : NetworkConfiguration K) (cfg : String)
    (hcfg : cfg ∈ (generateDeployments pub keyStr twinID nc).wgAccessConfigs) :
    cfg = "\n[Interface]\nAddress = 100.64.1.2\nPrivateKey = " ++
      keyStr nc.externalNodeKey ++ "\n[Peer]\nPublicKey = " ++
      pub (nc.keys nc.publicNodeID) ++
      "\nAllowedIPs = 10.1.0.0/16, 100.64.0.0/16\nPersistentKeepalive = 25\nEndpoint = 185.206.122.31:" ++
      toString (nc.wgPort nc.publicNodeID) ++ "\n\t" := by
  have hcfg' : cfg = accessWGConfig pub keyStr nc := by
    have : cfg ∈ (nc.nodeIDs.filter (fun node => node == nc.publicNodeID)).map
        (fun _ => accessWGConfig pub keyStr nc) := hcfg
    obtain ⟨n, _, h⟩ := List.mem_map.mp this
    exact h.symm
  rw [hcfg']
  apply String.ext
  simp [accessWGConfig, generateWGConfig, String.data_append, List.append_assoc]

/-- Witness for `accessConfig_constants`: the fully concrete
configuration of the two-node run. -/
theorem accessConfig_constants_witness :
    accessWGConfig pubF id nc5 =
      "\n[Interface]\nAddress = 100.64.1.2\nPrivateKey = extkey\n[Peer]\nPublicKey = pub-key1\nAllowedIPs = 10.1.0.0/16, 100.64.0.0/16\nPersistentKeepalive = 25\nEndpoint = 185.206.122.31:3001\n\t" := by
  have h := accessConfig_constants pubF id 13 nc5 (accessWGConfig pubF id nc5) (by decide)
  rw [h]
  decide

end GridProvider
